import Mathlib

/-!
Verification of the multi-agent compliance-analysis core of the TechJam2025
repository against its design specification.

The Python sources are shallowly embedded:
* Python `str` values are modelled as `List Char` (`Str`); `str.lower` is
  modelled as ASCII lowercasing (all texts handled here are ASCII);
* Python `float` values are modelled as exact rationals `ℚ`;
* Python `dict`s with string keys are modelled as association lists;
* `datetime` timestamps are modelled as rationals measured in days, so that
  `timedelta(days = d)` is the rational `d`;
* raised exceptions are modelled with `Except Str`.

Embedded components (file, class/function):
* `BE/core/cache.py`            — `ComplianceCache`;
* `vector_store.py`             — `SimpleFallbackStore.search_relevant_statutes`;
* `BE/utils/relevance.py`       — `calculate_relevance_score` and its helpers;
* `BE/core/agents.py`           — `LegalAnalysisAgent` fallback path,
                                  `ValidationAgent.analyze`,
                                  `MultiAgentOrchestrator.analyze_feature`;
* `BE/core/analyzer.py`         — `_extract_regulations` deduplication.
-/

/-- Python strings are modelled as lists of characters. -/
abbrev Str := List Char

/-- Embed a Lean string literal into the model type. -/
def str (s : String) : Str := s.data

/-- ASCII lowercasing of one character; model of Python `str.lower` on the
ASCII texts appearing in this code base. -/
def lowerChar (c : Char) : Char :=
  if 'A' ≤ c ∧ c ≤ 'Z' then Char.ofNat (c.toNat + 32) else c

/-- Model of Python `text.lower()`. -/
def lowerStr (s : Str) : Str := s.map lowerChar

/-- Model of the Python substring test `needle in hay`. -/
def strContains (hay needle : Str) : Bool :=
  if needle.isPrefixOf hay then true
  else
    match hay with
    | [] => false
    | _ :: t => strContains t needle

/-- Model of Python `text.split()`: split on whitespace runs, no empty words. -/
def splitWords (s : Str) : List Str :=
  go s []
where
  go : Str → Str → List Str
    | [], acc => if acc = [] then [] else [acc.reverse]
    | c :: cs, acc =>
      if c.isWhitespace then
        if acc = [] then go cs [] else acc.reverse :: go cs []
      else go cs (c :: acc)

/-- Model of Python `set(text.split())`: the distinct words of a text. -/
def wordSet (s : Str) : List Str := (splitWords s).eraseDups

/-- Size of the set intersection `a & b` for word sets (`a` duplicate-free). -/
def interCount (a b : List Str) : Nat := (a.filter (fun w => b.contains w)).length

/-- Lookup in a Python string-keyed dict modelled as an association list. -/
def dictGet {α : Type} (k : Str) : List (Str × α) → Option α
  | [] => none
  | (k', v) :: t => if k' = k then some v else dictGet k t

/-- Model of Python `d[k] = v` on a dict with unique keys. -/
def dictPut {α : Type} (k : Str) (v : α) : List (Str × α) → List (Str × α)
  | [] => [(k, v)]
  | (k', v') :: t => if k' = k then (k, v) :: t else (k', v') :: dictPut k v t

/-- Model of Python `del d[k]`. -/
def dictDel {α : Type} (k : Str) (l : List (Str × α)) : List (Str × α) :=
  l.filter (fun p => !(p.1 = k : Bool))

/-- Decimal rendering of a natural number, for Python f-string interpolation. -/
def natStr (n : Nat) : Str := Nat.toDigits 10 n

/-! ## Result cache (`BE/core/cache.py`, class `ComplianceCache`)

The pickled on-disk file is modelled by the `disk` field; `load_cache` (run
once in `__init__`) is not needed by any claim.  `_generate_hash` is MD5 in
the source; the embedding is parameterised by the hash function `hashf`,
since every claim about the cache holds for an arbitrary digest function. -/

namespace ComplianceCache

structure CacheEntry (V : Type) where
  result : V
  timestamp : ℚ
deriving DecidableEq

structure CacheState (V : Type) where
  expiry_days : ℚ
  cache : List (Str × CacheEntry V)
  disk : List (Str × CacheEntry V)
deriving DecidableEq

/-- Python `f"{feature_hash}_{statute_hash}"` with `_generate_hash = hashf`. -/
def generate_key (hashf : Str → Str) (feature statute : Str) : Str :=
  hashf feature ++ str "_" ++ hashf statute

/-- Method `save_cache`: rewrite the whole backing file from memory. -/
def save_cache {V : Type} (st : CacheState V) : CacheState V :=
  { st with disk := st.cache }

/-- Method `get_cached_result`; `now` is `datetime.now()` in days.  Returns
the looked-up value and the successor state. -/
def get_cached_result {V : Type} (hashf : Str → Str) (now : ℚ) (st : CacheState V)
    (feature statute : Str) : Option V × CacheState V :=
  let key := generate_key hashf feature statute
  match dictGet key st.cache with
  | some item =>
      if now - item.timestamp < st.expiry_days then (some item.result, st)
      else (none, { st with cache := dictDel key st.cache })
  | none => (none, st)

/-- Method `cache_result`: store under the derived key, then `save_cache`. -/
def cache_result {V : Type} (hashf : Str → Str) (now : ℚ) (st : CacheState V)
    (feature statute : Str) (v : V) : CacheState V :=
  save_cache { st with cache := dictPut (generate_key hashf feature statute) ⟨v, now⟩ st.cache }

end ComplianceCache

/-! ## Fallback retrieval (`vector_store.py`, class `SimpleFallbackStore`)

`search_relevant_statutes` is the keyword-overlap search used when ChromaDB
is unavailable.  Python `list.sort(key = ..., reverse = True)` is a stable
descending sort and is modelled with `List.mergeSort`, which is stable. -/

/-- Metadata dicts are string-keyed Python dicts. -/
abbrev Metadata := List (Str × Str)

namespace SimpleFallbackStore

/-- A raw document as stored by the fallback store: the Python dict fields
read by `_extract_content` and by the metadata construction in
`search_relevant_statutes`; `sections` holds each section's optional
`content` field (an absent `sections` key behaves like an empty list). -/
structure FallbackDoc where
  title : Option Str
  url : Option Str
  content_type : Option Str
  sections : List (Option Str)
deriving DecidableEq

structure SearchResult where
  documents : List Str
  metadatas : List Metadata
  distances : List ℚ
deriving DecidableEq

/-- Truthiness of `doc.get(key)` for an optional string field. -/
def truthy (o : Option Str) : Bool := !((o.getD [] = [] : Bool))

/-- Method `_extract_content` (fallback version): title plus each section's
content truncated to 1000 characters, joined by spaces. -/
def extract_content (d : FallbackDoc) : Str :=
  List.intercalate (str " ")
    ((if truthy d.title then [d.title.getD []] else [])
      ++ d.sections.filterMap (fun s => if truthy s then some ((s.getD []).take 1000) else none))

/-- The scored-document list built by the loop in `search_relevant_statutes`:
word-set overlap with the query, keeping only strictly positive scores, in
the original insertion order of `docs`. -/
def scoredDocs (docs : List FallbackDoc) (feature_description : Str) :
    List (Nat × FallbackDoc × Str) :=
  docs.filterMap (fun d =>
    let content := extract_content d
    let overlap := interCount (wordSet (lowerStr feature_description)) (wordSet (lowerStr content))
    if overlap > 0 then some (overlap, d, content) else none)

/-- Comparison used by `scored_docs.sort(key = lambda x : x[0], reverse = True)`. -/
def scoreGE (a b : Nat × FallbackDoc × Str) : Bool := decide (b.1 ≤ a.1)

/-- Method `search_relevant_statutes` of the fallback store. -/
def search_relevant_statutes (docs : List FallbackDoc) (feature_description : Str)
    (n_results : Nat) : SearchResult :=
  let top := ((scoredDocs docs feature_description).mergeSort scoreGE).take n_results
  { documents := top.map (fun t => t.2.2)
    metadatas := top.map (fun t =>
      [(str "title", (t.2.1.title).getD (str "Unknown")),
       (str "url", (t.2.1.url).getD []),
       (str "doc_type", (t.2.1.content_type).getD (str "legal_document"))])
    distances := top.map (fun t => 1 / ((t.1 : ℚ) + 1)) }

end SimpleFallbackStore

/-! ## Relevance scoring (`BE/utils/relevance.py`) and the Legal Analyst
fallback (`BE/core/agents.py`, `LegalAnalysisAgent`)

Regular-expression patterns `a.{0,10}b` are modelled as: an occurrence of
`a` followed, within at most 10 characters, by an occurrence of `b` (the
texts involved are single-line, so `.` is any character).  Python
`list(set(...))` returns the distinct topics in unspecified order; the
model keeps first-seen order — downstream code only uses the lists as
sets (intersection sizes and emptiness), which is order-independent. -/

namespace Relevance

/-- `ComplianceConfig.US_STATES` from `BE/config.py`. -/
def US_STATES : List Str :=
  [str "Alabama", str "Alaska", str "Arizona", str "Arkansas", str "California",
   str "Colorado", str "Connecticut", str "Delaware", str "Florida", str "Georgia",
   str "Hawaii", str "Idaho", str "Illinois", str "Indiana", str "Iowa", str "Kansas",
   str "Kentucky", str "Louisiana", str "Maine", str "Maryland", str "Massachusetts",
   str "Michigan", str "Minnesota", str "Mississippi", str "Missouri", str "Montana",
   str "Nebraska", str "Nevada", str "New Hampshire", str "New Jersey", str "New Mexico",
   str "New York", str "North Carolina", str "North Dakota", str "Ohio", str "Oklahoma",
   str "Oregon", str "Pennsylvania", str "Rhode Island", str "South Carolina",
   str "South Dakota", str "Tennessee", str "Texas", str "Utah", str "Vermont",
   str "Virginia", str "Washington", str "West Virginia", str "Wisconsin", str "Wyoming"]

/-- The `state_abbreviations` table of `extract_locations`. -/
def state_abbreviations : List (Str × Str) :=
  [(str "ca", str "California"), (str "ny", str "New York"), (str "tx", str "Texas"),
   (str "fl", str "Florida"), (str "ut", str "Utah"), (str "wa", str "Washington"),
   (str "or", str "Oregon"), (str "nv", str "Nevada")]

/-- Function `extract_locations`. -/
def extract_locations (text : Str) : List Str :=
  let tl := lowerStr text
  let locs := US_STATES.filter (fun st => strContains tl (lowerStr st))
  state_abbreviations.foldl (fun acc p =>
    if strContains ((' ' :: tl) ++ [' ']) ((' ' :: p.1) ++ [' '])
        || strContains tl ((' ' :: p.1) ++ str ".") then
      if p.2 ∈ acc then acc else acc ++ [p.2]
    else acc) locs

/-- `ComplianceConfig.COMPLIANCE_TOPICS` from `BE/config.py`. -/
def COMPLIANCE_TOPICS : List Str :=
  [str "minors", str "children", str "age verification", str "social media",
   str "privacy", str "data protection", str "parental consent", str "COPPA",
   str "curfew", str "addiction", str "content moderation",
   str "algorithmic transparency", str "targeted advertising"]

/-- A topic-detection pattern: a literal substring or `a.{0,10}b`. -/
inductive TopicPat
  | lit : Str → TopicPat
  | gap : Str → Nat → Str → TopicPat

/-- Does `a.{0,k}b` match at the start of `t`? -/
def gapMatchAt (a b : Str) (k : Nat) (t : Str) : Bool :=
  a.isPrefixOf t && (List.range (k + 1)).any (fun j => b.isPrefixOf ((t.drop a.length).drop j))

/-- Does `a.{0,k}b` match anywhere in the text (Python `re.search`)? -/
def gapSearch (a b : Str) (k : Nat) : Str → Bool
  | [] => gapMatchAt a b k []
  | c :: rest => gapMatchAt a b k (c :: rest) || gapSearch a b k rest

def matchTopicPat (t : Str) : TopicPat → Bool
  | .lit s => strContains t s
  | .gap a k b => gapSearch a b k t

/-- The `topic_patterns` table of `extract_key_topics`. -/
def topic_patterns : List (Str × List TopicPat) :=
  [(str "age_verification",
    [.gap (str "age") 10 (str "verify"), .gap (str "age") 10 (str "check"),
     .gap (str "verify") 10 (str "age")]),
   (str "parental_consent",
    [.gap (str "parent") 10 (str "consent"), .gap (str "guardian") 10 (str "approval")]),
   (str "data_collection",
    [.gap (str "data") 10 (str "collect"), .gap (str "collect") 10 (str "data"),
     .gap (str "user") 10 (str "data")]),
   (str "content_filtering",
    [.gap (str "content") 10 (str "filter"), .gap (str "filter") 10 (str "content"),
     .gap (str "block") 10 (str "content")]),
   (str "time_restrictions",
    [.gap (str "time") 10 (str "restrict"), .lit (str "curfew"),
     .gap (str "hours") 10 (str "limit")])]

/-- Function `extract_key_topics` (result used as a set downstream). -/
def extract_key_topics (text : Str) : List Str :=
  let tl := lowerStr text
  ((COMPLIANCE_TOPICS.filter (fun tp => strContains tl (lowerStr tp)))
    ++ (topic_patterns.filter (fun p => p.2.any (matchTopicPat tl))).map (fun p => p.1)).eraseDups

/-- The `regulation_keywords` of `has_specific_regulation_match`. -/
def regulation_keywords : List Str :=
  [str "coppa", str "sb-976", str "sb976", str "house bill", str "senate bill",
   str "digital services act", str "dsa", str "gdpr", str "ccpa", str "ferpa"]

/-- Function `has_specific_regulation_match`: the keyword sets of the two
texts intersect iff some keyword occurs in both. -/
def has_specific_regulation_match (feature_description statute_content : Str) : Bool :=
  let fl := lowerStr feature_description
  let sl := lowerStr statute_content
  regulation_keywords.any (fun k => strContains fl k && strContains sl k)

/-- Function `calculate_relevance_score`. -/
def calculate_relevance_score (feature_description statute_content : Str)
    (statute_metadata : Metadata) : ℚ :=
  let feature_locations := extract_locations feature_description
  let statute_locations := extract_locations statute_content
  let geo : ℚ :=
    if feature_locations.any (fun l => statute_locations.contains l) then 0.4
    else if feature_locations ≠ [] ∧ statute_locations = [] then 0.1
    else if feature_locations = [] then 0.2
    else 0
  let topic_overlap := interCount (extract_key_topics feature_description)
    (extract_key_topics statute_content)
  let topic_score := min ((topic_overlap : ℚ) * 0.1) 0.4
  let reg : ℚ := if has_specific_regulation_match feature_description statute_content
    then 0.2 else 0
  let bonus : ℚ :=
    if dictGet (str "content_type") statute_metadata = some (str "legal_statute")
    then 0.05 else 0
  min (geo + topic_score + reg + bonus) 1

end Relevance

namespace LegalAnalysisAgent

/-- The `high_risk_indicators` of `_assess_risk`. -/
def high_risk_indicators : List Str :=
  [str "penalty", str "fine", str "criminal", str "violation", str "lawsuit",
   str "prohibited"]

/-- The `medium_risk_indicators` of `_assess_risk`. -/
def medium_risk_indicators : List Str :=
  [str "required", str "mandatory", str "must", str "shall", str "obligation"]

/-- Method `_assess_risk`. -/
def assess_risk (regulation_text : Str) : Str :=
  let tl := lowerStr regulation_text
  if high_risk_indicators.any (fun ind => strContains tl ind) then str "high"
  else if medium_risk_indicators.any (fun ind => strContains tl ind) then str "medium"
  else str "low"

/-- The `jurisdictions` table of `_extract_jurisdiction` (Python dicts
iterate in insertion order, so the first matching row wins). -/
def jurisdictions : List (Str × List Str) :=
  [(str "EU", [str "european", str "eu", str "gdpr", str "europe"]),
   (str "US", [str "united states", str "america", str "federal", str "coppa", str "ccpa"]),
   (str "California", [str "california", str "ccpa", str "sb976"]),
   (str "Global", [str "international", str "worldwide", str "cross-border"])]

/-- Method `_extract_jurisdiction`. -/
def extract_jurisdiction (doc : Str) (metadata : Metadata) : Str :=
  let dl := lowerStr doc
  match jurisdictions.find? (fun p => p.2.any (fun k => strContains dl k)) with
  | some p => p.1
  | none => (dictGet (str "jurisdiction") metadata).getD (str "Unknown")

/-- A regulation finding as assembled by the fallback loop of
`LegalAnalysisAgent.analyze`.  The `requirements` field (regular-expression
capture extraction) is not modelled; no claim refers to it. -/
structure RegAnalysis where
  regulation : Str
  relevance : ℚ
  content_excerpt : Str
  jurisdiction : Str
  compliance_risk : Str
deriving DecidableEq

/-- `ComplianceConfig.RELEVANCE_THRESHOLD` from `BE/config.py`. -/
def RELEVANCE_THRESHOLD : ℚ := 0.5

/-- The `reg_analysis` dict built for one kept document (`i` is the
enumeration index). -/
def mkRegAnalysis (feature_description : Str) (i : Nat) (doc : Str)
    (metadata : Metadata) : RegAnalysis :=
  { regulation := (dictGet (str "title") metadata).getD (str "Document " ++ natStr (i + 1))
    relevance := Relevance.calculate_relevance_score feature_description doc metadata
    content_excerpt := if doc.length > 200 then doc.take 200 ++ str "..." else doc
    jurisdiction := extract_jurisdiction doc metadata
    compliance_risk := assess_risk doc }

/-- The fallback loop of `LegalAnalysisAgent.analyze` (lines 98-118): over
`enumerate(zip(documents[0], metadatas[0]))`, skip falsy documents or
metadata, keep documents whose relevance reaches the threshold. -/
def legalFallbackRegs (feature_description : Str) :
    Nat → List (Str × Metadata) → List RegAnalysis
  | _, [] => []
  | i, (doc, md) :: rest =>
    if doc = [] ∨ md = [] then legalFallbackRegs feature_description (i + 1) rest
    else if Relevance.calculate_relevance_score feature_description doc md
        ≥ RELEVANCE_THRESHOLD then
      mkRegAnalysis feature_description i doc md
        :: legalFallbackRegs feature_description (i + 1) rest
    else legalFallbackRegs feature_description (i + 1) rest

/-- The fallback path of `LegalAnalysisAgent.analyze` without an LLM client:
retrieve with `n_results = 10` (the single result row of the retrieval
response), then run the fallback loop on the zipped documents/metadata. -/
def legal_analyze_fallback (retrieve : Str → Nat → SimpleFallbackStore.SearchResult)
    (feature_description : Str) : List RegAnalysis :=
  let relevant_regs := retrieve feature_description 10
  legalFallbackRegs feature_description 0
    (relevant_regs.documents.zip relevant_regs.metadatas)

end LegalAnalysisAgent

/-- A concrete feature description for the C8 witness. -/
def fdW : Str := str "parental consent and age verification for children privacy"

/-- A concrete retrieved statute text for the C8 witness. -/
def docW : Str := str "children privacy parental consent age verification must comply"

/-- Metadata of the concrete retrieved statute. -/
def mdW : Metadata := [(str "title", str "COPPA")]

/-! ## Regulation deduplication (`BE/core/analyzer.py`, `_extract_regulations`)

In `_extract_regulations` the list `regulations` is the concatenation of the
agent contributions, the regulations mentioned by the LLM, and the trigger
entries, in that order; the final loop deduplicates it by `name` with a
`seen_names` set.  The claim quantifies over that combined list. -/

namespace UnifiedComplianceAnalyzer

/-- A regulation entry of the shape `_extract_regulations` assembles. -/
structure RegEntry where
  name : Str
  applies : Bool
  reason : Str
deriving DecidableEq

/-- The deduplication loop at the end of `_extract_regulations` (`seen` is
the Python `seen_names` set, `unique_regulations` the accumulated output). -/
def dedupGo (seen : List Str) : List RegEntry → List RegEntry
  | [] => []
  | r :: rs =>
    if r.name ∈ seen then dedupGo seen rs
    else r :: dedupGo (r.name :: seen) rs

/-- Deduplication of the combined regulation list, as in the source. -/
def dedupRegulations (regs : List RegEntry) : List RegEntry := dedupGo [] regs

/-- Modelled from the spec words, for comparison: keep each name's first
occurrence, in first-seen order. -/
def specFirstSeen : List RegEntry → List RegEntry
  | [] => []
  | r :: rs => r :: specFirstSeen (rs.filter (fun x => !(x.name = r.name : Bool)))
termination_by l => l.length
decreasing_by
  simp only [List.length_cons]
  exact Nat.lt_succ_of_le (List.length_filter_le _ _)

end UnifiedComplianceAnalyzer

/-! ## Validator and orchestrator (`BE/core/agents.py`)

`ValidationAgent.analyze` consolidates the per-agent result dicts.  Each
agent result dict is modelled by `AgentResult`: fields that a given agent
does not produce are `Option`/default values, matching `dict.get` with its
defaults; reading a missing mandatory key (`intent_result["intent"]` on a
placeholder finding) is a `KeyError`, modelled with `Except`.
`MultiAgentOrchestrator.analyze_feature` replaces failed agents by
placeholder findings and catches any error from consolidation, returning
the catastrophic fallback verdict instead (the metadata keys added on the
success path — timestamp, agents_used, totals — are not modelled; the
catastrophic dict's missing consensus/notes keys are modelled as their
initial values). -/

namespace Agents

/-- The per-agent result dict, as read by `ValidationAgent.analyze`. -/
structure AgentResult where
  agent : Str
  confidence : ℚ
  intent : Option Str
  applicable_regulations : List Str
  risk_level : Option Str
  reasoning : Str
  implementation_complexity : Option Str
  security_considerations : List Str
  error : Option Str
deriving DecidableEq

/-- The consolidated verdict dict built by `ValidationAgent.analyze` (and by
the catastrophic fallback of `analyze_feature`). -/
structure Consolidated where
  feature_name : Str
  feature_id : Str
  needs_compliance_logic : Bool
  confidence : ℚ
  reasoning : List Str
  applicable_regulations : List Str
  action_required : Str
  human_review_needed : Bool
  risk_level : Str
  implementation_notes : List Str
  agent_consensus : ℚ
  error : Option Str
deriving DecidableEq

/-- The feature dict fields read by the consolidation code. -/
structure Feature where
  feature_name : Option Str
  id : Option Str
  description : Option Str
deriving DecidableEq

/-- The initial `consolidated` dict of `ValidationAgent.analyze`. -/
def initConsolidated (feature : Feature) : Consolidated :=
  { feature_name := feature.feature_name.getD (str "Unknown")
    feature_id := feature.id.getD []
    needs_compliance_logic := false
    confidence := 0
    reasoning := []
    applicable_regulations := []
    action_required := str "NO_ACTION"
    human_review_needed := false
    risk_level := str "low"
    implementation_notes := []
    agent_consensus := 0
    error := none }

/-- Python `next((r for r in agent_results if r["agent"] == name), None)`. -/
def findAgent (name : Str) (rs : List AgentResult) : Option AgentResult :=
  rs.find? (fun r => decide (r.agent = name))

/-- The intent-analysis block of `ValidationAgent.analyze`; reading the
`intent` key of a placeholder finding raises `KeyError`. -/
def applyIntent (c : Consolidated) (rs : List AgentResult) : Except Str Consolidated :=
  match findAgent (str "Intent Classifier") rs with
  | none => .ok c
  | some ir =>
      match ir.intent with
      | none => .error (str "KeyError: intent")
      | some it =>
          if it = str "business" then
            .ok { c with
              reasoning := c.reasoning
                ++ [str "Feature appears to be business-driven, not legally required"]
              confidence := ir.confidence }
          else if it = str "compliance" then
            .ok { c with
              needs_compliance_logic := true
              reasoning := c.reasoning ++ [str "Feature identified as compliance-driven"]
              confidence := ir.confidence }
          else if it = str "ambiguous" then
            .ok { c with
              human_review_needed := true
              reasoning := c.reasoning ++ [str "Intent is ambiguous - human review required"]
              confidence := ir.confidence }
          else .ok c

/-- The legal-analysis block of `ValidationAgent.analyze`. -/
def applyLegal (c : Consolidated) (rs : List AgentResult) : Consolidated :=
  match findAgent (str "Legal Analyst") rs with
  | none => c
  | some lr =>
      if lr.applicable_regulations ≠ [] then
        { c with
          needs_compliance_logic := true
          applicable_regulations := lr.applicable_regulations
          reasoning := c.reasoning
            ++ [str "Found " ++ natStr lr.applicable_regulations.length
                ++ str " applicable regulations"]
          confidence := max c.confidence lr.confidence
          risk_level := lr.risk_level.getD (str "low") }
      else c

/-- The technical block of `ValidationAgent.analyze`. -/
def applyTechnical (c : Consolidated) (rs : List AgentResult) : Consolidated :=
  match findAgent (str "Technical Analyst") rs with
  | none => c
  | some tr =>
      let c1 := { c with
        implementation_notes := c.implementation_notes
          ++ [str "Technical complexity: " ++ tr.implementation_complexity.getD (str "low")] }
      if tr.security_considerations ≠ [] then
        { c1 with
          implementation_notes := c1.implementation_notes
            ++ [str "Security considerations: "
                ++ natStr tr.security_considerations.length] }
      else c1

/-- The consensus computation of `ValidationAgent.analyze`: Python keeps
only truthy confidences (a `0.0` confidence is filtered out). -/
def computeConsensus (rs : List AgentResult) : ℚ :=
  let confidences := (rs.filter (fun r => decide (r.confidence ≠ 0))).map
    (fun r => r.confidence)
  if confidences = [] then 0 else confidences.sum / confidences.length

/-- The final-action block of `ValidationAgent.analyze`. -/
def applyAction (c : Consolidated) : Consolidated :=
  { c with
    action_required :=
      if c.human_review_needed then str "HUMAN_REVIEW"
      else if c.needs_compliance_logic then
        (if c.risk_level = str "high" then str "URGENT_COMPLIANCE"
         else str "IMPLEMENT_COMPLIANCE")
      else str "NO_ACTION" }

/-- Method `ValidationAgent.analyze`, in source order: intent, legal,
technical, consensus, final action, low-consensus adjustment. -/
def consolidate (feature : Feature) (rs : List AgentResult) : Except Str Consolidated := do
  let c1 ← applyIntent (initConsolidated feature) rs
  let c2 := applyLegal c1 rs
  let c3 := applyTechnical c2 rs
  let consensus := computeConsensus rs
  let c4 := applyAction { c3 with agent_consensus := consensus }
  pure (if consensus < 0.5 then
          { c4 with
            human_review_needed := true
            reasoning := c4.reasoning
              ++ [str "Low agent consensus - human review recommended"] }
        else c4)

/-- The placeholder finding the orchestrator synthesizes for a failed agent. -/
def placeholderFinding (name e : Str) : AgentResult :=
  { agent := name
    confidence := 0
    intent := none
    applicable_regulations := []
    risk_level := none
    reasoning := str "Agent failed: " ++ e
    implementation_complexity := none
    security_considerations := []
    error := some e }

/-- The outcome of one agent task in `asyncio.gather(..., return_exceptions
= True)`: the agent's name together with its result or raised exception. -/
abbrev AgentOutcome := Str × Except Str AgentResult

/-- The `valid_results` list of `MultiAgentOrchestrator.analyze_feature`. -/
def validResults (outcomes : List AgentOutcome) : List AgentResult :=
  outcomes.map (fun p =>
    match p.2 with
    | .ok r => r
    | .error e => placeholderFinding p.1 e)

/-- The catastrophic fallback verdict of `analyze_feature`. -/
def failureVerdict (feature : Feature) (e : Str) : Consolidated :=
  { feature_name := feature.feature_name.getD (str "Unknown")
    feature_id := feature.id.getD []
    needs_compliance_logic := false
    confidence := 0
    reasoning := [str "Analysis failed: " ++ e]
    applicable_regulations := []
    action_required := str "HUMAN_REVIEW"
    human_review_needed := true
    risk_level := str "unknown"
    implementation_notes := []
    agent_consensus := 0
    error := some e }

/-- Method `MultiAgentOrchestrator.analyze_feature`, parameterised by the
gathered per-agent outcomes. -/
def analyze_feature (feature : Feature) (outcomes : List AgentOutcome) : Consolidated :=
  match consolidate feature (validResults outcomes) with
  | .ok c => c
  | .error e => failureVerdict feature e

/-- The part of `ValidationAgent.analyze` after the intent block, packaged
for reasoning about the success path. -/
def finishConsolidate (c1 : Consolidated) (rs : List AgentResult) : Consolidated :=
  let c3 := applyTechnical (applyLegal c1 rs) rs
  let consensus := computeConsensus rs
  let c4 := applyAction { c3 with agent_consensus := consensus }
  if consensus < 0.5 then
    { c4 with
      human_review_needed := true
      reasoning := c4.reasoning
        ++ [str "Low agent consensus - human review recommended"] }
  else c4

/-- A concrete feature used by the concrete scenarios below. -/
def featX : Feature := ⟨some (str "X"), some (str "1"), none⟩

/-- Intent Classifier finding: business intent, confidence 0.4. -/
def intentBiz : AgentResult :=
  { agent := str "Intent Classifier", confidence := 2/5, intent := some (str "business")
    applicable_regulations := [], risk_level := none, reasoning := []
    implementation_complexity := none, security_considerations := [], error := none }

/-- Technical Analyst finding with confidence 0.3. -/
def techLow : AgentResult :=
  { agent := str "Technical Analyst", confidence := 3/10, intent := none
    applicable_regulations := [], risk_level := none, reasoning := []
    implementation_complexity := none, security_considerations := [], error := none }

/-- Intent Classifier finding: compliance intent, confidence 1. -/
def intentComp1 : AgentResult :=
  { agent := str "Intent Classifier", confidence := 1, intent := some (str "compliance")
    applicable_regulations := [], risk_level := none, reasoning := []
    implementation_complexity := none, security_considerations := [], error := none }

/-- Legal Analyst finding: one regulation, high risk, confidence 1. -/
def legalHigh1 : AgentResult :=
  { agent := str "Legal Analyst", confidence := 1, intent := none
    applicable_regulations := [str "GDPR"], risk_level := some (str "high"), reasoning := []
    implementation_complexity := none, security_considerations := [], error := none }

/-- Technical Analyst finding with confidence 1. -/
def tech1 : AgentResult :=
  { agent := str "Technical Analyst", confidence := 1, intent := none
    applicable_regulations := [], risk_level := none, reasoning := []
    implementation_complexity := none, security_considerations := [], error := none }

/-- Intent Classifier finding: compliance intent, confidence 0.9. -/
def intentComp9 : AgentResult :=
  { agent := str "Intent Classifier", confidence := 9/10, intent := some (str "compliance")
    applicable_regulations := [], risk_level := none, reasoning := []
    implementation_complexity := none, security_considerations := [], error := none }

/-- Technical Analyst finding with confidence 0.6. -/
def tech6 : AgentResult :=
  { agent := str "Technical Analyst", confidence := 3/5, intent := none
    applicable_regulations := [], risk_level := none, reasoning := []
    implementation_complexity := none, security_considerations := [], error := none }

/-- A gathered outcome list in which only the Legal Analyst raised. -/
def outcomesLegalFail : List AgentOutcome :=
  [(str "Intent Classifier", .ok intentComp9),
   (str "Legal Analyst", .error (str "boom")),
   (str "Technical Analyst", .ok tech6)]

/-- A gathered outcome list in which the Intent Classifier raised (its
placeholder finding then makes the Validator itself raise `KeyError`). -/
def outcomesIntentFail : List AgentOutcome :=
  [(str "Intent Classifier", .error (str "crash")),
   (str "Legal Analyst", .ok legalHigh1),
   (str "Technical Analyst", .ok tech6)]

end Agents

/-! ## Theorems -/

theorem dictGet_dictPut_same {α : Type} (k : Str) (v : α) (l : List (Str × α)) :
    dictGet k (dictPut k v l) = some v := by
  induction l with
  | nil => simp [dictPut, dictGet]
  | cons h t ih =>
      by_cases hk : h.1 = k
      · simp [dictPut, hk, dictGet]
      · simp [dictPut, hk, dictGet, ih]

theorem dictGet_dictDel_same {α : Type} (k : Str) (l : List (Str × α)) :
    dictGet k (dictDel k l) = none := by
  induction l with
  | nil => simp [dictDel, dictGet]
  | cons h t ih =>
      by_cases hk : h.1 = k
      · simpa [dictDel, hk] using ih
      · simpa [dictDel, hk, dictGet] using ih

section CacheClaims

open ComplianceCache

/-- C3.  For all subject text `s`, reference text `r` and value `v`:
`put(s, r, v)` followed immediately by `get(s, r)` returns `v`; and when the
stored entry is older than the configured expiry (default 30 days),
`get(s, r)` returns absent and removes the entry.  Stated for any digest
function, any positive configured expiry and any later clock reading. -/
theorem cache_put_get_ttl_C3 {V : Type} (hashf : Str → Str) (st : CacheState V)
    (s r : Str) (v : V) (now now2 : ℚ)
    (hpos : 0 < st.expiry_days) (hexp : now2 - now > st.expiry_days) :
    (get_cached_result hashf now (cache_result hashf now st s r v) s r).1 = some v
    ∧ (get_cached_result hashf now2 (cache_result hashf now st s r v) s r).1 = none
    ∧ dictGet (generate_key hashf s r)
        (get_cached_result hashf now2 (cache_result hashf now st s r v) s r).2.cache = none := by
  have hput : dictGet (generate_key hashf s r)
      (cache_result hashf now st s r v).cache = some ⟨v, now⟩ := by
    simp [cache_result, save_cache, dictGet_dictPut_same]
  have hdays : (cache_result hashf now st s r v).expiry_days = st.expiry_days := rfl
  refine ⟨?_, ?_, ?_⟩
  · simp only [get_cached_result, hput, hdays]
    rw [if_pos (by simpa using hpos)]
  · simp only [get_cached_result, hput, hdays]
    rw [if_neg (by simpa using not_lt_of_gt hexp)]
  · simp only [get_cached_result, hput, hdays]
    rw [if_neg (by simpa using not_lt_of_gt hexp)]
    simpa using dictGet_dictDel_same (generate_key hashf s r) _

/-- Witness for C3 at a concrete instance: expiry 30 days, write at day 0,
expired read at day 31. -/
theorem cache_put_get_ttl_C3_witness :
    ((0:ℚ) < 30 ∧ (31:ℚ) - 0 > 30)
    ∧ ((get_cached_result (fun _ => str "h") 0
          (cache_result (fun _ => str "h") 0 ⟨30, [], []⟩ (str "s") (str "r") 7)
          (str "s") (str "r")).1 = some 7
      ∧ (get_cached_result (fun _ => str "h") 31
          (cache_result (fun _ => str "h") 0 ⟨30, [], []⟩ (str "s") (str "r") 7)
          (str "s") (str "r")).1 = none
      ∧ dictGet (generate_key (fun _ => str "h") (str "s") (str "r"))
          (get_cached_result (fun _ => str "h") 31
            (cache_result (fun _ => str "h") 0 ⟨30, [], []⟩ (str "s") (str "r") 7)
            (str "s") (str "r")).2.cache = none) :=
  ⟨⟨by norm_num, by norm_num⟩,
   cache_put_get_ttl_C3 (V := ℕ) (fun _ => str "h") ⟨30, [], []⟩
     (str "s") (str "r") 7 0 31 (by norm_num) (by norm_num)⟩

/-- C10.  A `get` on the result cache never touches the on-disk file, even
when it finds an expired entry and deletes it from the in-memory map; the
backing file is written solely by `put`, which rewrites the whole store
synchronously after each write (so afterwards disk and memory coincide). -/
theorem cache_disk_frame_C10 {V : Type} (hashf : Str → Str) (st : CacheState V)
    (s r : Str) (v : V) (now : ℚ) :
    (get_cached_result hashf now st s r).2.disk = st.disk
    ∧ (cache_result hashf now st s r v).disk = (cache_result hashf now st s r v).cache := by
  constructor
  · unfold get_cached_result
    cases hk : dictGet (generate_key hashf s r) st.cache with
    | none => simp [hk]
    | some item =>
        by_cases hlt : now - item.timestamp < st.expiry_days
        · simp [hk, hlt]
        · simp [hk, hlt]
  · rfl

end CacheClaims

namespace SimpleFallbackStore

theorem scoreGE_trans (a b c : Nat × FallbackDoc × Str) :
    scoreGE a b = true → scoreGE b c = true → scoreGE a c = true := by
  simp only [scoreGE, decide_eq_true_eq]
  exact fun h1 h2 => le_trans h2 h1

theorem scoreGE_total (a b : Nat × FallbackDoc × Str) :
    (scoreGE a b || scoreGE b a) = true := by
  simp only [scoreGE, Bool.or_eq_true, decide_eq_true_eq]
  exact (Nat.le_total b.1 a.1).imp id id

theorem enumLE_scoreGE_trans (a b c : Nat × (Nat × FallbackDoc × Str)) :
    List.enumLE scoreGE a b = true → List.enumLE scoreGE b c = true →
    List.enumLE scoreGE a c = true := by
  simp only [List.enumLE, scoreGE, decide_eq_true_eq]
  intro h1 h2
  split at h1 <;> split at h2 <;> split <;> simp_all <;> omega

theorem enumLE_scoreGE_total (a b : Nat × (Nat × FallbackDoc × Str)) :
    (List.enumLE scoreGE a b || List.enumLE scoreGE b a) = true := by
  simp only [List.enumLE, scoreGE, decide_eq_true_eq]
  split <;> split <;> simp_all <;> omega

end SimpleFallbackStore

section FallbackSearchClaims

open SimpleFallbackStore

theorem interCount_nil (b : List Str) : interCount [] b = 0 := rfl

theorem wordSet_nil : wordSet [] = [] := rfl

theorem scoredDocs_empty_query (docs : List FallbackDoc) : scoredDocs docs [] = [] := by
  unfold scoredDocs
  rw [List.filterMap_eq_nil_iff]
  intro d _
  simp [lowerStr, wordSet_nil, interCount_nil]

/-- C7.  In fallback mode, search scores each document by the word-set
overlap with the query and returns documents ranked by that score
descending, ties broken by original insertion order (the sort is stable:
it agrees with sorting the position-enumerated list, which is ordered by
strictly greater score or equal score and non-decreasing original
position); an empty corpus or an empty query gives the empty result, not
an error. -/
theorem fallback_search_C7 :
    (∀ (fd : Str) (n : Nat), search_relevant_statutes [] fd n = ⟨[], [], []⟩)
    ∧ (∀ (docs : List FallbackDoc) (n : Nat), search_relevant_statutes docs [] n = ⟨[], [], []⟩)
    ∧ (∀ (docs : List FallbackDoc) (fd : Str),
        ((scoredDocs docs fd).mergeSort scoreGE).Pairwise (fun a b => b.1 ≤ a.1))
    ∧ (∀ (docs : List FallbackDoc) (fd : Str),
        ((scoredDocs docs fd).mergeSort scoreGE).Perm (scoredDocs docs fd))
    ∧ (∀ (docs : List FallbackDoc) (fd : Str),
        (((scoredDocs docs fd).enum.mergeSort (List.enumLE scoreGE)).map (fun x => x.2))
            = (scoredDocs docs fd).mergeSort scoreGE
        ∧ ((scoredDocs docs fd).enum.mergeSort (List.enumLE scoreGE)).Pairwise
            (fun x y => y.2.1 < x.2.1 ∨ (x.2.1 = y.2.1 ∧ x.1 ≤ y.1)))
    ∧ (∀ (docs : List FallbackDoc) (fd : Str) (n : Nat),
        (search_relevant_statutes docs fd n).documents
          = (((scoredDocs docs fd).mergeSort scoreGE).take n).map (fun t => t.2.2)) := by
  refine ⟨?_, ?_, ?_, ?_, ?_, ?_⟩
  · intro fd n
    simp [search_relevant_statutes, scoredDocs]
  · intro docs n
    simp [search_relevant_statutes, scoredDocs_empty_query]
  · intro docs fd
    exact (List.sorted_mergeSort scoreGE_trans scoreGE_total _).imp
      (fun h => by simpa [scoreGE] using h)
  · intro docs fd
    exact List.mergeSort_perm _ _
  · intro docs fd
    refine ⟨List.mergeSort_enum, ?_⟩
    refine (List.sorted_mergeSort enumLE_scoreGE_trans enumLE_scoreGE_total _).imp ?_
    intro x y h
    simp only [List.enumLE, scoreGE, decide_eq_true_eq] at h
    split at h
    · split at h
      · rename_i h1 h2
        exact Or.inr ⟨Nat.le_antisymm h2 h1, by simpa using h⟩
      · rename_i h1 h2
        exact Or.inl (by omega)
    · simp at h
  · intro docs fd n
    rfl

end FallbackSearchClaims

section LegalFallbackClaims

open LegalAnalysisAgent

theorem legalFallbackRegs_length (fd : Str) :
    ∀ (pairs : List (Str × Metadata)) (i0 : Nat),
    (∀ p ∈ pairs, p.1 ≠ [] ∧ p.2 ≠ []) →
    (legalFallbackRegs fd i0 pairs).length
      = pairs.countP (fun p =>
          decide (Relevance.calculate_relevance_score fd p.1 p.2 ≥ RELEVANCE_THRESHOLD)) := by
  intro pairs
  induction pairs with
  | nil => intro i0 _; simp [legalFallbackRegs]
  | cons p rest ih =>
      intro i0 hne
      obtain ⟨doc, md⟩ := p
      obtain ⟨hd, hm⟩ := hne (doc, md) (List.mem_cons_self _ _)
      have hrest := fun q hq => hne q (List.mem_cons_of_mem _ hq)
      by_cases hrel : Relevance.calculate_relevance_score fd doc md ≥ RELEVANCE_THRESHOLD
      · simp [legalFallbackRegs, hd, hm, hrel, List.countP_cons, ih (i0 + 1) hrest]
      · simp [legalFallbackRegs, hd, hm, hrel, List.countP_cons, ih (i0 + 1) hrest]

theorem legalFallbackRegs_mem (fd : Str) :
    ∀ (pairs : List (Str × Metadata)) (i0 : Nat),
    ∀ r ∈ legalFallbackRegs fd i0 pairs, ∃ p ∈ pairs,
      Relevance.calculate_relevance_score fd p.1 p.2 ≥ RELEVANCE_THRESHOLD
      ∧ r.relevance = Relevance.calculate_relevance_score fd p.1 p.2
      ∧ r.compliance_risk = assess_risk p.1 := by
  intro pairs
  induction pairs with
  | nil => intro i0 r hr; simp [legalFallbackRegs] at hr
  | cons p rest ih =>
      intro i0 r hr
      obtain ⟨doc, md⟩ := p
      by_cases hskip : doc = [] ∨ md = []
      · rw [show legalFallbackRegs fd i0 ((doc, md) :: rest)
              = legalFallbackRegs fd (i0 + 1) rest by
            simp [legalFallbackRegs, hskip]] at hr
        obtain ⟨q, hq, hrest⟩ := ih (i0 + 1) r hr
        exact ⟨q, List.mem_cons_of_mem _ hq, hrest⟩
      · by_cases hrel : Relevance.calculate_relevance_score fd doc md ≥ RELEVANCE_THRESHOLD
        · rw [show legalFallbackRegs fd i0 ((doc, md) :: rest)
                = mkRegAnalysis fd i0 doc md :: legalFallbackRegs fd (i0 + 1) rest by
              simp [legalFallbackRegs, hskip, hrel]] at hr
          rcases List.mem_cons.mp hr with rfl | hr'
          · exact ⟨(doc, md), List.mem_cons_self _ _, hrel, rfl, rfl⟩
          · obtain ⟨q, hq, hrest⟩ := ih (i0 + 1) r hr'
            exact ⟨q, List.mem_cons_of_mem _ hq, hrest⟩
        · rw [show legalFallbackRegs fd i0 ((doc, md) :: rest)
                = legalFallbackRegs fd (i0 + 1) rest by
              simp [legalFallbackRegs, hskip, hrel]] at hr
          obtain ⟨q, hq, hrest⟩ := ih (i0 + 1) r hr
          exact ⟨q, List.mem_cons_of_mem _ hq, hrest⟩

theorem assess_risk_cases (t : Str) :
    (assess_risk t = str "high"
      ↔ high_risk_indicators.any (fun ind => strContains (lowerStr t) ind) = true)
    ∧ (assess_risk t = str "medium"
      ↔ high_risk_indicators.any (fun ind => strContains (lowerStr t) ind) = false
        ∧ medium_risk_indicators.any (fun ind => strContains (lowerStr t) ind) = true)
    ∧ (assess_risk t = str "low"
      ↔ high_risk_indicators.any (fun ind => strContains (lowerStr t) ind) = false
        ∧ medium_risk_indicators.any (fun ind => strContains (lowerStr t) ind) = false) := by
  by_cases h1 : high_risk_indicators.any (fun ind => strContains (lowerStr t) ind) = true
  · refine ⟨by simp [assess_risk, h1], ?_, ?_⟩ <;>
      simp only [assess_risk, h1, if_true] <;>
      constructor <;> intro h <;> first
        | exact absurd h (by decide)
        | simp_all
  · have h1f : high_risk_indicators.any (fun ind => strContains (lowerStr t) ind) = false :=
      Bool.eq_false_iff.mpr h1
    by_cases h2 : medium_risk_indicators.any (fun ind => strContains (lowerStr t) ind) = true
    · refine ⟨?_, by simp [assess_risk, h1f, h2], ?_⟩ <;>
        simp only [assess_risk, h1f, Bool.false_eq_true, if_false, h2, if_true] <;>
        constructor <;> intro h <;> first
          | exact absurd h (by decide)
          | simp_all
    · have h2f : medium_risk_indicators.any (fun ind => strContains (lowerStr t) ind) = false :=
        Bool.eq_false_iff.mpr h2
      refine ⟨?_, ?_, by simp [assess_risk, h1f, h2f]⟩ <;>
        simp only [assess_risk, h1f, h2f, Bool.false_eq_true, if_false] <;>
        constructor <;> intro h <;> first
          | exact absurd h (by decide)
          | simp_all

theorem fallback_pairs_nonempty (docs : List SimpleFallbackStore.FallbackDoc)
    (fd : Str) (n : Nat) :
    ∀ p ∈ ((SimpleFallbackStore.search_relevant_statutes docs fd n).documents.zip
            (SimpleFallbackStore.search_relevant_statutes docs fd n).metadatas),
      p.1 ≠ ([] : Str) ∧ p.2 ≠ ([] : Metadata) := by
  intro p hp
  unfold SimpleFallbackStore.search_relevant_statutes at hp
  simp only [List.zip_map'] at hp
  rw [List.mem_map] at hp
  obtain ⟨t, ht, rfl⟩ := hp
  refine ⟨?_, by simp⟩
  have ht2 : t ∈ (SimpleFallbackStore.scoredDocs docs fd).mergeSort
      SimpleFallbackStore.scoreGE := List.take_subset _ _ ht
  have ht3 : t ∈ SimpleFallbackStore.scoredDocs docs fd :=
    (List.mergeSort_perm _ _).mem_iff.mp ht2
  obtain ⟨d, _, hsome⟩ := List.mem_filterMap.mp ht3
  dsimp only at hsome
  split at hsome
  · rename_i hov
    obtain rfl := Option.some.inj hsome
    intro hc
    dsimp only at hc
    rw [hc] at hov
    simp [interCount, lowerStr, wordSet_nil] at hov
  · exact absurd hsome (by simp)

/-- C8.  On the text-completion fallback path the Legal Analyst retrieves
with `limit = 10`, and over retrieved pairs with non-empty document text and
metadata it emits exactly one regulation finding per document whose
computed relevance reaches the configured threshold (0.5); each finding
carries that document's relevance, and its risk tag is `high` iff the
lowercased document contains a penalty/violation indicator, `medium` iff it
contains none of those but an obligation indicator (must/shall/...), and
`low` iff it contains neither.  The last conjunct shows the fallback
retrieval only ever supplies non-empty document/metadata pairs, so the
non-emptiness hypothesis holds on the pipeline. -/
theorem legal_fallback_C8 (fd : Str) (i0 : Nat) (pairs : List (Str × Metadata))
    (hne : ∀ p ∈ pairs, p.1 ≠ [] ∧ p.2 ≠ []) :
    (legalFallbackRegs fd i0 pairs).length
      = pairs.countP (fun p =>
          decide (Relevance.calculate_relevance_score fd p.1 p.2 ≥ RELEVANCE_THRESHOLD))
    ∧ (∀ r ∈ legalFallbackRegs fd i0 pairs, ∃ p ∈ pairs,
        Relevance.calculate_relevance_score fd p.1 p.2 ≥ RELEVANCE_THRESHOLD
        ∧ r.relevance = Relevance.calculate_relevance_score fd p.1 p.2
        ∧ r.compliance_risk = assess_risk p.1)
    ∧ (∀ t : Str,
        (assess_risk t = str "high"
          ↔ high_risk_indicators.any (fun ind => strContains (lowerStr t) ind) = true)
        ∧ (assess_risk t = str "medium"
          ↔ high_risk_indicators.any (fun ind => strContains (lowerStr t) ind) = false
            ∧ medium_risk_indicators.any (fun ind => strContains (lowerStr t) ind) = true)
        ∧ (assess_risk t = str "low"
          ↔ high_risk_indicators.any (fun ind => strContains (lowerStr t) ind) = false
            ∧ medium_risk_indicators.any (fun ind => strContains (lowerStr t) ind) = false))
    ∧ (∀ (retrieve : Str → Nat → SimpleFallbackStore.SearchResult) (q : Str),
        legal_analyze_fallback retrieve q
          = legalFallbackRegs q 0
              ((retrieve q 10).documents.zip (retrieve q 10).metadatas))
    ∧ (∀ (docs : List SimpleFallbackStore.FallbackDoc) (q : Str) (n : Nat),
        ∀ p ∈ ((SimpleFallbackStore.search_relevant_statutes docs q n).documents.zip
                (SimpleFallbackStore.search_relevant_statutes docs q n).metadatas),
          p.1 ≠ ([] : Str) ∧ p.2 ≠ ([] : Metadata)) :=
  ⟨legalFallbackRegs_length fd pairs i0 hne,
   legalFallbackRegs_mem fd pairs i0,
   assess_risk_cases,
   fun _ _ => rfl,
   fallback_pairs_nonempty⟩

/-- Witness for C8 at one concrete retrieved document whose relevance is
0.6 ≥ 0.5 and whose text carries obligation language (tag `medium`). -/
theorem legal_fallback_C8_witness :
    (docW ≠ ([] : Str) ∧ mdW ≠ ([] : Metadata))
    ∧ (legalFallbackRegs fdW 0 [(docW, mdW)]).length
        = [(docW, mdW)].countP (fun p =>
            decide (Relevance.calculate_relevance_score fdW p.1 p.2 ≥ RELEVANCE_THRESHOLD))
    ∧ Relevance.calculate_relevance_score fdW docW mdW = 3/5
    ∧ assess_risk docW = str "medium" := by
  refine ⟨⟨by decide, by decide⟩, ?_, ?_, by decide⟩
  · exact (legal_fallback_C8 fdW 0 [(docW, mdW)]
      (by
        intro p hp
        rw [List.mem_singleton] at hp
        subst hp
        exact ⟨by decide, by decide⟩)).1
  · have hfl : Relevance.extract_locations fdW = [] := by decide
    have hsl : Relevance.extract_locations docW = [] := by decide
    have hto : interCount (Relevance.extract_key_topics fdW)
        (Relevance.extract_key_topics docW) = 5 := by decide
    have hreg : Relevance.has_specific_regulation_match fdW docW = false := by decide
    have hbon : dictGet (str "content_type") mdW = none := by decide
    simp only [Relevance.calculate_relevance_score, hfl, hsl, hto, hreg, hbon]
    norm_num
    rw [if_neg (by simp), add_zero, inf_eq_min, min_def]
    norm_num

end LegalFallbackClaims

namespace UnifiedComplianceAnalyzer

theorem count_eq_one_of_nodup_mem {l : List Str} {n : Str}
    (hd : l.Nodup) (hm : n ∈ l) : l.count n = 1 := by
  induction l with
  | nil => cases hm
  | cons a t ih =>
      rcases List.mem_cons.mp hm with rfl | hm'
      · have h0 : t.count n = 0 := by
          rw [List.count_eq_zero]
          exact (List.nodup_cons.mp hd).1
        rw [List.count_cons_self, h0]
      · rw [List.count_cons_of_ne, ih (List.nodup_cons.mp hd).2 hm']
        rintro rfl
        exact (List.nodup_cons.mp hd).1 hm'

theorem dedupGo_mem_name (rs : List RegEntry) (seen : List Str) (n : Str) :
    n ∈ (dedupGo seen rs).map (fun r => r.name)
      ↔ n ∉ seen ∧ n ∈ rs.map (fun r => r.name) := by
  induction rs generalizing seen with
  | nil => simp [dedupGo]
  | cons r rs ih =>
      by_cases hr : r.name ∈ seen
      · simp only [dedupGo, if_pos hr, ih, List.map_cons, List.mem_cons]
        constructor
        · exact fun ⟨h1, h2⟩ => ⟨h1, Or.inr h2⟩
        · rintro ⟨h1, h2 | h2⟩
          · exact absurd (h2 ▸ hr) h1
          · exact ⟨h1, h2⟩
      · simp only [dedupGo, if_neg hr, List.map_cons, List.mem_cons, ih, List.mem_cons]
        constructor
        · rintro (rfl | ⟨h1, h2⟩)
          · exact ⟨hr, Or.inl rfl⟩
          · exact ⟨fun hs => h1 (Or.inr hs), Or.inr h2⟩
        · rintro ⟨h1, rfl | h2⟩
          · exact Or.inl rfl
          · by_cases hn : n = r.name
            · exact Or.inl hn
            · exact Or.inr ⟨fun hs => hs.elim (fun h => hn h) h1, h2⟩

theorem dedupGo_nodup_name (rs : List RegEntry) (seen : List Str) :
    ((dedupGo seen rs).map (fun r => r.name)).Nodup := by
  induction rs generalizing seen with
  | nil => simp [dedupGo]
  | cons r rs ih =>
      by_cases hr : r.name ∈ seen
      · simpa [dedupGo, hr] using ih seen
      · simp only [dedupGo, if_neg hr, List.map_cons, List.nodup_cons]
        refine ⟨fun hmem => ?_, ih (r.name :: seen)⟩
        exact ((dedupGo_mem_name rs (r.name :: seen) r.name).mp hmem).1 (List.mem_cons_self _ _)

theorem dedupGo_eq_specFirstSeen (rs : List RegEntry) (seen : List Str) :
    dedupGo seen rs = specFirstSeen (rs.filter (fun x => !decide (x.name ∈ seen))) := by
  induction rs generalizing seen with
  | nil => simp [dedupGo, specFirstSeen]
  | cons r rs ih =>
      by_cases hr : r.name ∈ seen
      · simp only [dedupGo, if_pos hr, List.filter_cons, decide_eq_true hr]
        simpa using ih seen
      · simp only [dedupGo, if_neg hr]
        rw [show List.filter (fun x => !decide (x.name ∈ seen)) (r :: rs)
              = r :: List.filter (fun x => !decide (x.name ∈ seen)) rs by simp [hr]]
        simp only [specFirstSeen, List.filter_filter]
        rw [ih (r.name :: seen)]
        congr 1
        congr 1
        apply List.filter_congr
        intro x _
        by_cases h1 : x.name = r.name <;> by_cases h2 : x.name ∈ seen <;>
          simp [h1, h2]

/-- C6.  Deduplicating the combined regulation list gives each regulation
name exactly once, in first-seen order: the result coincides with the
canonical keep-first-occurrence function, its name sequence has no
duplicates, every contributed name is retained, and each retained name
occurs exactly once. -/
theorem regulation_dedup_C6 (regs : List RegEntry) :
    dedupRegulations regs = specFirstSeen regs
    ∧ ((dedupRegulations regs).map (fun r => r.name)).Nodup
    ∧ (∀ n : Str, n ∈ (dedupRegulations regs).map (fun r => r.name)
        ↔ n ∈ regs.map (fun r => r.name))
    ∧ (∀ n : Str, n ∈ regs.map (fun r => r.name) →
        ((dedupRegulations regs).map (fun r => r.name)).count n = 1) := by
  refine ⟨?_, dedupGo_nodup_name regs [], ?_, ?_⟩
  · have := dedupGo_eq_specFirstSeen regs []
    simpa [dedupRegulations] using this
  · intro n
    simpa using dedupGo_mem_name regs [] n
  · intro n hn
    have hmem : n ∈ (dedupRegulations regs).map (fun r => r.name) := by
      simpa using (dedupGo_mem_name regs [] n).mpr ⟨by simp, hn⟩
    exact count_eq_one_of_nodup_mem (dedupGo_nodup_name regs []) hmem

end UnifiedComplianceAnalyzer

namespace Agents

theorem consolidate_eq (feature : Feature) (rs : List AgentResult) :
    consolidate feature rs
      = (applyIntent (initConsolidated feature) rs).map (fun c1 => finishConsolidate c1 rs) := by
  unfold consolidate finishConsolidate
  cases applyIntent (initConsolidated feature) rs <;> rfl

theorem applyAction_human_review (c : Consolidated) :
    (applyAction c).human_review_needed = c.human_review_needed := rfl

theorem applyAction_needs (c : Consolidated) :
    (applyAction c).needs_compliance_logic = c.needs_compliance_logic := rfl

theorem applyAction_risk (c : Consolidated) :
    (applyAction c).risk_level = c.risk_level := rfl

theorem applyAction_consensus (c : Consolidated) :
    (applyAction c).agent_consensus = c.agent_consensus := rfl

theorem applyAction_action (c : Consolidated) :
    (applyAction c).action_required =
      (if c.human_review_needed then str "HUMAN_REVIEW"
       else if c.needs_compliance_logic then
         (if c.risk_level = str "high" then str "URGENT_COMPLIANCE"
          else str "IMPLEMENT_COMPLIANCE")
       else str "NO_ACTION") := rfl

theorem finishConsolidate_consensus (c1 : Consolidated) (rs : List AgentResult) :
    (finishConsolidate c1 rs).agent_consensus = computeConsensus rs := by
  unfold finishConsolidate
  by_cases h : computeConsensus rs < 0.5 <;> simp [h, applyAction_consensus]

theorem finishConsolidate_review_of_low (c1 : Consolidated) (rs : List AgentResult)
    (h : computeConsensus rs < 0.5) :
    (finishConsolidate c1 rs).human_review_needed = true := by
  unfold finishConsolidate
  simp [h]

theorem finishConsolidate_of_not_low (c1 : Consolidated) (rs : List AgentResult)
    (h : ¬ computeConsensus rs < 0.5) :
    finishConsolidate c1 rs
      = applyAction { applyTechnical (applyLegal c1 rs) rs with
                      agent_consensus := computeConsensus rs } := by
  unfold finishConsolidate
  simp [h]

theorem consolidate_ok_inv (feature : Feature) (rs : List AgentResult) (c : Consolidated)
    (hok : consolidate feature rs = .ok c) :
    ∃ c1, applyIntent (initConsolidated feature) rs = .ok c1 ∧ c = finishConsolidate c1 rs := by
  rw [consolidate_eq] at hok
  cases hi : applyIntent (initConsolidated feature) rs with
  | error e => rw [hi] at hok; exact absurd hok (by simp [Except.map])
  | ok c1 =>
      rw [hi] at hok
      simp only [Except.map, Except.ok.injEq] at hok
      exact ⟨c1, rfl, hok.symm⟩

end Agents

section ValidatorClaims

open Agents

/-- C1 (counterexample).  A consolidation in which every agent reports
confidence 1, the intent is compliance and the Legal Analyst reports high
risk yields a verdict with `riskLevel = high` but `humanReviewNeeded =
false`, so `riskLevel == high` alone does not force human review. -/
theorem high_risk_without_review_C1_cex :
    (consolidate featX [intentComp1, legalHigh1, tech1]).map
      (fun c => (c.risk_level, c.human_review_needed))
      = Except.ok (str "high", false) := by
  norm_num +decide [consolidate, applyIntent, applyLegal, applyTechnical, applyAction,
    computeConsensus, findAgent, initConsolidated, featX, intentComp1, legalHigh1, tech1,
    str, List.find?, Except.map]

/-- C1 (amended).  In every verdict that completes normal consolidation,
`agentConsensus < 0.5` forces `humanReviewNeeded = true`; the
`riskLevel == high` disjunct of the claimed invariant does not hold. -/
theorem consensus_forces_review_C1 (feature : Feature) (rs : List AgentResult)
    (c : Consolidated) (hok : consolidate feature rs = .ok c)
    (hlow : c.agent_consensus < 0.5) :
    c.human_review_needed = true := by
  obtain ⟨c1, _, rfl⟩ := consolidate_ok_inv feature rs c hok
  by_cases h : computeConsensus rs < 0.5
  · exact finishConsolidate_review_of_low c1 rs h
  · rw [finishConsolidate_consensus] at hlow
    exact absurd hlow h

/-- Witness for C1 (amended): the concrete run with confidences 0.4 and 0.3
has consensus 0.35 < 0.5 and indeed carries the review flag. -/
theorem consensus_forces_review_C1_witness :
    (consolidate featX [intentBiz, techLow]).map (fun c => c.human_review_needed)
      = Except.ok true := by
  have heval : (consolidate featX [intentBiz, techLow]).map (fun c => c.agent_consensus)
      = Except.ok ((7:ℚ)/20) := by
    norm_num +decide [consolidate, applyIntent, applyLegal, applyTechnical, applyAction,
      computeConsensus, findAgent, initConsolidated, featX, intentBiz, techLow,
      str, List.find?, Except.map]
  cases hok : consolidate featX [intentBiz, techLow] with
  | error e => rw [hok] at heval; exact absurd heval (by simp [Except.map])
  | ok c =>
      rw [hok] at heval
      simp only [Except.map, Except.ok.injEq] at heval
      have hrev := consensus_forces_review_C1 featX [intentBiz, techLow] c hok
        (by rw [heval]; norm_num)
      simp [Except.map, hrev]

/-- C4 (counterexample).  A consolidation with business intent (confidence
0.4) and a technical finding (confidence 0.3) produces
`humanReviewNeeded = true` (low consensus, applied after the action was
chosen) together with `actionRequired = NO_ACTION`, contradicting the
claimed `humanReviewNeeded ⇒ actionRequired = human_review` mapping. -/
theorem action_policy_C4_cex :
    (consolidate featX [intentBiz, techLow]).map
      (fun c => (c.action_required, c.human_review_needed))
      = Except.ok (str "NO_ACTION", true) := by
  norm_num +decide [consolidate, applyIntent, applyLegal, applyTechnical, applyAction,
    computeConsensus, findAgent, initConsolidated, featX, intentBiz, techLow,
    str, List.find?, Except.map]

/-- C4 (amended).  The Validator fixes `actionRequired` before the
low-consensus override of `humanReviewNeeded`: if the final verdict has
`humanReviewNeeded = false` the action follows the tier mapping
(`URGENT_COMPLIANCE` when compliance logic is needed at high risk,
`IMPLEMENT_COMPLIANCE` when needed otherwise, else `NO_ACTION`);
`actionRequired = HUMAN_REVIEW` only ever occurs with
`humanReviewNeeded = true`; and a verdict with `humanReviewNeeded = true`
but a different action can only arise from `agentConsensus < 0.5`. -/
theorem action_policy_C4 (feature : Feature) (rs : List AgentResult)
    (c : Consolidated) (hok : consolidate feature rs = .ok c) :
    (c.action_required = str "HUMAN_REVIEW" → c.human_review_needed = true)
    ∧ (c.human_review_needed = false →
        c.action_required =
          (if c.needs_compliance_logic then
            (if c.risk_level = str "high" then str "URGENT_COMPLIANCE"
             else str "IMPLEMENT_COMPLIANCE")
           else str "NO_ACTION"))
    ∧ (c.human_review_needed = true → c.action_required ≠ str "HUMAN_REVIEW" →
        c.agent_consensus < 0.5) := by
  obtain ⟨c1, _, rfl⟩ := consolidate_ok_inv feature rs c hok
  by_cases hlow : computeConsensus rs < 0.5
  · have hrev := finishConsolidate_review_of_low c1 rs hlow
    refine ⟨fun _ => hrev, fun hb => absurd (hrev ▸ hb) (by decide), fun _ _ => ?_⟩
    rw [finishConsolidate_consensus]
    exact hlow
  · have heq := finishConsolidate_of_not_low c1 rs hlow
    rw [heq]
    set d : Consolidated :=
      { applyTechnical (applyLegal c1 rs) rs with agent_consensus := computeConsensus rs }
      with hd
    refine ⟨?_, ?_, ?_⟩
    · intro ha
      rw [applyAction_action] at ha
      rw [applyAction_human_review]
      split_ifs at ha with hc1 hc2 hc3
      · exact hc1
      all_goals exact absurd ha (by decide)
    · intro hb
      rw [applyAction_human_review] at hb
      rw [applyAction_action, applyAction_needs, applyAction_risk, hb]
      simp
    · intro h1 h2
      rw [applyAction_human_review] at h1
      exact absurd (by rw [applyAction_action, h1]; simp) h2

/-- Witness for C4 (amended): in the high-risk all-confident run the review
flag is down and the action is the high-risk tier `URGENT_COMPLIANCE`. -/
theorem action_policy_C4_witness :
    (consolidate featX [intentComp1, legalHigh1, tech1]).map
      (fun c => c.action_required) = Except.ok (str "URGENT_COMPLIANCE") := by
  have heval : (consolidate featX [intentComp1, legalHigh1, tech1]).map
      (fun c => (c.human_review_needed, c.needs_compliance_logic, c.risk_level))
      = Except.ok (false, true, str "high") := by
    norm_num +decide [consolidate, applyIntent, applyLegal, applyTechnical, applyAction,
      computeConsensus, findAgent, initConsolidated, featX, intentComp1, legalHigh1, tech1,
      str, List.find?, Except.map]
  cases hok : consolidate featX [intentComp1, legalHigh1, tech1] with
  | error e => rw [hok] at heval; exact absurd heval (by simp [Except.map])
  | ok c =>
      rw [hok] at heval
      simp only [Except.map, Except.ok.injEq, Prod.mk.injEq] at heval
      obtain ⟨h1, h2, h3⟩ := heval
      have hact := (action_policy_C4 featX [intentComp1, legalHigh1, tech1] c hok).2.1 h1
      rw [h2, h3] at hact
      simp only [if_true] at hact
      simp [Except.map, hact]

/-- C5 (counterexample).  With agent confidences 0.9, 0 and 0, the mean over
all three agents is 0.3 < 0.5, yet the verdict's `agentConsensus` is 0.9
(zero confidences are filtered out by truthiness) and `humanReviewNeeded`
stays `false`. -/
theorem consensus_mean_C5_cex :
    (consolidate featX
        [intentComp9,
         placeholderFinding (str "Legal Analyst") (str "x"),
         placeholderFinding (str "Technical Analyst") (str "y")]).map
      (fun c => (c.agent_consensus, c.human_review_needed))
      = Except.ok ((9:ℚ)/10, false)
    ∧ ((intentComp9.confidence
        + (placeholderFinding (str "Legal Analyst") (str "x")).confidence
        + (placeholderFinding (str "Technical Analyst") (str "y")).confidence) / 3 : ℚ)
        = 3/10
    ∧ ((3:ℚ)/10 < 0.5) := by
  refine ⟨?_, by norm_num [intentComp9, placeholderFinding], by norm_num⟩
  norm_num +decide [consolidate, applyIntent, applyLegal, applyTechnical, applyAction,
    computeConsensus, findAgent, initConsolidated, featX, intentComp9, placeholderFinding,
    str, List.find?, Except.map]

/-- C5 (amended).  The verdict's `agentConsensus` is the arithmetic mean of
the confidences of the agents reporting a nonzero confidence (0 when there
are none) — zero-confidence findings are excluded — and whenever that value
is below 0.5 the verdict has `humanReviewNeeded = true`. -/
theorem consensus_mean_C5 (feature : Feature) (rs : List AgentResult)
    (c : Consolidated) (hok : consolidate feature rs = .ok c) :
    c.agent_consensus = computeConsensus rs
    ∧ (c.agent_consensus < 0.5 → c.human_review_needed = true) := by
  obtain ⟨c1, _, rfl⟩ := consolidate_ok_inv feature rs c hok
  refine ⟨finishConsolidate_consensus c1 rs, fun hlow => ?_⟩
  rw [finishConsolidate_consensus] at hlow
  exact finishConsolidate_review_of_low c1 rs hlow

/-- Witness for C5 (amended) at the concrete 0.4/0.3 run: the stored
consensus equals the filtered mean. -/
theorem consensus_mean_C5_witness :
    (consolidate featX [intentBiz, techLow]).map (fun c => c.agent_consensus)
      = Except.ok (computeConsensus [intentBiz, techLow]) := by
  have hne : (consolidate featX [intentBiz, techLow]).map (fun _ => true)
      = Except.ok true := by
    norm_num +decide [consolidate, applyIntent, applyLegal, applyTechnical, applyAction,
      computeConsensus, findAgent, initConsolidated, featX, intentBiz, techLow,
      str, List.find?, Except.map]
  cases hok : consolidate featX [intentBiz, techLow] with
  | error e => rw [hok] at hne; exact absurd hne (by simp [Except.map])
  | ok c =>
      have hcons := (consensus_mean_C5 featX [intentBiz, techLow] c hok).1
      simp [Except.map, hok, hcons]

end ValidatorClaims

section OrchestratorClaims

open Agents

/-- C2 (counterexample).  When exactly the Legal Analyst fails (the other
agents reporting confidences 0.9 and 0.6), `analyzeFeature` returns a
verdict with `humanReviewNeeded = false`: the placeholder's zero confidence
is excluded from the consensus, so a single agent failure does not force
human review. -/
theorem agent_isolation_C2_cex :
    (analyze_feature featX outcomesLegalFail).human_review_needed = false := by
  norm_num +decide [analyze_feature, validResults, placeholderFinding, outcomesLegalFail,
    consolidate, applyIntent, applyLegal, applyTechnical, applyAction, computeConsensus,
    findAgent, initConsolidated, featX, intentComp9, tech6, str, List.find?, Except.map]

/-- C2 (amended).  When an agent raises, the orchestrator replaces it by a
placeholder finding with `confidence = 0` and reasoning `Agent failed: e`,
so the Validator receives exactly one finding per registered agent;
`humanReviewNeeded` is not thereby forced to `true` (the zero-confidence
placeholder is excluded from the consensus — see the counterexample). -/
theorem agent_isolation_C2 (outcomes : List AgentOutcome) (i : Nat)
    (h : i < outcomes.length) (e : Str)
    (herr : (outcomes.get ⟨i, h⟩).2 = .error e) :
    (validResults outcomes).length = outcomes.length
    ∧ (validResults outcomes).get ⟨i, by simpa [validResults] using h⟩
        = placeholderFinding (outcomes.get ⟨i, h⟩).1 e
    ∧ (placeholderFinding (outcomes.get ⟨i, h⟩).1 e).confidence = 0
    ∧ (placeholderFinding (outcomes.get ⟨i, h⟩).1 e).reasoning
        = str "Agent failed: " ++ e := by
  refine ⟨by simp [validResults], ?_, rfl, rfl⟩
  rw [List.get_eq_getElem] at herr
  simp only [validResults, List.getElem_map, List.get_eq_getElem]
  rw [herr]

/-- Witness for C2 (amended) on the run where the Legal Analyst raised. -/
theorem agent_isolation_C2_witness :
    (validResults outcomesLegalFail).length = outcomesLegalFail.length
    ∧ (validResults outcomesLegalFail).get ⟨1, by decide⟩
        = placeholderFinding (outcomesLegalFail.get ⟨1, by decide⟩).1 (str "boom")
    ∧ (placeholderFinding (outcomesLegalFail.get ⟨1, by decide⟩).1 (str "boom")).confidence = 0
    ∧ (placeholderFinding (outcomesLegalFail.get ⟨1, by decide⟩).1 (str "boom")).reasoning
        = str "Agent failed: " ++ str "boom" :=
  agent_isolation_C2 outcomesLegalFail 1 (by decide) (str "boom") rfl

/-- C9.  When consolidation of the gathered findings itself raises,
`analyzeFeature` returns the catastrophic fallback verdict — `riskLevel =
unknown`, `actionRequired = HUMAN_REVIEW`, `humanReviewNeeded = true` —
instead of propagating the exception (in the model, `analyze_feature` is a
total function into verdicts). -/
theorem total_failure_C9 (feature : Feature) (outcomes : List AgentOutcome) (e : Str)
    (herr : consolidate feature (validResults outcomes) = .error e) :
    analyze_feature feature outcomes = failureVerdict feature e
    ∧ (analyze_feature feature outcomes).risk_level = str "unknown"
    ∧ (analyze_feature feature outcomes).action_required = str "HUMAN_REVIEW"
    ∧ (analyze_feature feature outcomes).human_review_needed = true := by
  have h1 : analyze_feature feature outcomes = failureVerdict feature e := by
    unfold analyze_feature
    rw [herr]
  exact ⟨h1, by rw [h1]; rfl, by rw [h1]; rfl, by rw [h1]; rfl⟩

/-- Witness for C9: when the Intent Classifier fails, its placeholder lacks
the `intent` key, the Validator raises `KeyError`, and the orchestrator
returns the fallback verdict. -/
theorem total_failure_C9_witness :
    analyze_feature featX outcomesIntentFail
        = failureVerdict featX (str "KeyError: intent")
    ∧ (analyze_feature featX outcomesIntentFail).risk_level = str "unknown"
    ∧ (analyze_feature featX outcomesIntentFail).action_required = str "HUMAN_REVIEW"
    ∧ (analyze_feature featX outcomesIntentFail).human_review_needed = true :=
  total_failure_C9 featX outcomesIntentFail (str "KeyError: intent") rfl

end OrchestratorClaims
